import Mathlib

/-!
Verification of the paper-engine index core against its specification.

The development shallowly embeds the three source files:

* `src/intern.rs`   — the global string pool (`Intern` namespace);
* `src/file_format.rs` — the binary codec (`Codec` namespace), modelled at
  byte level: all text is a list of byte values, `f64` term frequencies are
  carried as their 8-byte little-endian bit patterns (the codec only copies
  those bytes, so this is exact);
* `src/main.rs`     — the document store, ingestion and the TF-IDF ranker
  (`Engine` namespace), modelled at text level: titles, paths and terms are
  `String`s, term frequencies are rationals, and `log10` is a parameter of
  the ranker (the code computes it on `f64`; every theorem that depends on
  its value takes explicit interval bounds satisfied by any faithful
  `log10`).

Rust `HashMap`s are modelled as association lists with replace-on-insert;
their iteration order is unspecified in Rust, and every property proved
below is insensitive to the order chosen (counting, lookup, or an output
that is subsequently sorted).  Rust panics (out-of-bounds slicing, integer
division by zero) are modelled by explicit result constructors or by
`Option`, as noted at each definition.
-/

/-- Association-list lookup, modelling `HashMap::get`. -/
def lookupA {α β : Type} [DecidableEq α] (k : α) : List (α × β) → Option β
  | [] => none
  | (k', v) :: rest => if k = k' then some v else lookupA k rest

/-- Association-list insert with replacement, modelling `HashMap::insert`. -/
def insertA {α β : Type} [DecidableEq α] (k : α) (v : β) : List (α × β) → List (α × β)
  | [] => [(k, v)]
  | (k', v') :: rest => if k = k' then (k, v) :: rest else (k', v') :: insertA k v rest

/-- Association-list removal, modelling `HashMap::remove` (value discarded). -/
def eraseA {α β : Type} [DecidableEq α] (k : α) : List (α × β) → List (α × β)
  | [] => []
  | (k', v') :: rest => if k = k' then rest else (k', v') :: eraseA k rest

namespace Codec

/-- Byte strings: each entry is one byte value (`0 ≤ b < 256` on real data). -/
abbrev Str := List Nat

/-- Little-endian value of a byte list, as read by `uNN::from_le_bytes`.
Applied to the exact slice the code reads (`take 2` / `take 8`). -/
def leVal : Str → Nat
  | [] => 0
  | b :: rest => b % 256 + 256 * leVal rest

/-- Little-endian encoding of `v` on `n` bytes, as written by
`(v as uNN).to_le_bytes()`; wider values wrap, exactly like the `as` cast. -/
def leBytes : Nat → Nat → Str
  | 0, _ => []
  | n + 1, v => v % 256 :: leBytes n (v / 256)

/-- Mirror of `struct Document` in `main.rs` as the codec sees it: text as
bytes, term frequencies as raw `f64` bit patterns.  Terms are identified by
their text (the code interns the text and compares handles; interning is a
bijection between issued handles and text). -/
structure Document where
  title : Str
  path : Str
  term_frequency : List (Str × Nat)
deriving DecidableEq

/-- Mirror of `struct TfIdf` in `main.rs` as the codec sees it. -/
structure TfIdf where
  global_term_count : List (Str × Nat)
  documents : List (Str × Document)
deriving DecidableEq

/-- Decode errors of `TfIdf::deserialize`.  The code returns formatted
strings; this models the two distinct error sites (`corruptedStream` for an
out-of-order 0x03/0x04 record, `unknownTag` for an unrecognized tag byte). -/
inductive DecodeErr where
  | corruptedStream
  | unknownTag (c : Nat)
deriving DecidableEq

/-- Result of `TfIdf::deserialize`.  `abort` models a Rust panic (an
out-of-bounds slice index in `b[i+k..][..n]`): the function neither returns
a store nor a decode error. -/
inductive DeResult where
  | ok (t : TfIdf)
  | err (e : DecodeErr)
  | abort
deriving DecidableEq

/-- The decode loop of `TfIdf::deserialize` (`file_format.rs:16-94`), one
call per record.  State: the store built so far (`t`) and the currently
open document (`doc`), exactly as in the source.  Each branch reads the
fields at the offsets the code uses and panics (`.abort`) precisely when
the code's slice indexing would: a record whose declared length or
fixed-width fields extend past the end of the buffer.  Note:

* tag 0x02 first finalizes any open document into `t.documents`, then opens
  a fresh document with the decoded title and empty path/term map;
* tags 0x03/0x04 check that a document is open before reading any field,
  returning `corruptedStream` otherwise, as the source does;
* reaching the end of the buffer returns `t` as is — a still-open document
  is dropped (`file_format.rs:93-95`). -/
def deserializeLoop (t : TfIdf) (doc : Option Document) : Str → DeResult
  | [] => .ok t
  | c :: rest =>
    if c = 0x01 then
      let len := leVal (rest.take 2)
      if 10 + len ≤ rest.length then
        let count := leVal ((rest.drop 2).take 8)
        let term := (rest.drop 10).take len
        deserializeLoop
          { t with global_term_count := insertA term count t.global_term_count }
          doc (rest.drop (10 + len))
      else .abort
    else if c = 0x02 then
      let t' := match doc with
        | some d => { t with documents := insertA d.title d t.documents }
        | none => t
      let len := leVal (rest.take 2)
      if 2 + len ≤ rest.length then
        let title := (rest.drop 2).take len
        deserializeLoop t' (some ⟨title, [], []⟩) (rest.drop (2 + len))
      else .abort
    else if c = 0x03 then
      match doc with
      | none => .err .corruptedStream
      | some d =>
        let len := leVal (rest.take 2)
        if 2 + len ≤ rest.length then
          let path := (rest.drop 2).take len
          deserializeLoop t (some { d with path := path }) (rest.drop (2 + len))
        else .abort
    else if c = 0x04 then
      match doc with
      | none => .err .corruptedStream
      | some d =>
        let len := leVal (rest.take 2)
        if 10 + len ≤ rest.length then
          let freq := leVal ((rest.drop 2).take 8)
          let term := (rest.drop 10).take len
          deserializeLoop t
            (some { d with term_frequency := insertA term freq d.term_frequency })
            (rest.drop (10 + len))
        else .abort
    else .err (.unknownTag c)
termination_by b => b.length
decreasing_by
  all_goals simp [List.length_drop]; omega

/-- Model of `TfIdf::deserialize`: run the loop from the empty store with no open
document. -/
def TfIdf.deserialize (b : Str) : DeResult :=
  deserializeLoop ⟨[], []⟩ none b

/-- Model of `TfIdf::serialize` (`file_format.rs:98-120`): all 0x01 records, then per
document one 0x02, one 0x03 and one 0x04 per term.  Length fields are the
byte length cast `as u16`, i.e. wrapped modulo 2^16 (`leBytes 2`); counts
and frequency bit patterns take 8 bytes.  The writer is modelled as the
produced byte list; the function never fails. -/
def TfIdf.serialize (t : TfIdf) : Str :=
  (t.global_term_count.flatMap fun p =>
    0x01 :: (leBytes 2 p.1.length ++ leBytes 8 p.2 ++ p.1))
  ++ t.documents.flatMap fun p =>
    (0x02 :: (leBytes 2 p.2.title.length ++ p.2.title))
    ++ (0x03 :: (leBytes 2 p.2.path.length ++ p.2.path))
    ++ p.2.term_frequency.flatMap fun q =>
      0x04 :: (leBytes 2 q.1.length ++ leBytes 8 q.2 ++ q.1)

/-- The sequence of record tags a byte stream frames, following exactly the
offsets of `deserializeLoop`; traversal stops after a record that is
truncated or has an unknown tag.  Used to state where the decoder can read
a 0x02 record. -/
def recordTags : Str → List Nat
  | [] => []
  | c :: rest =>
    if c = 0x01 then
      if 10 + leVal (rest.take 2) ≤ rest.length then
        c :: recordTags (rest.drop (10 + leVal (rest.take 2)))
      else [c]
    else if c = 0x02 then
      if 2 + leVal (rest.take 2) ≤ rest.length then
        c :: recordTags (rest.drop (2 + leVal (rest.take 2)))
      else [c]
    else if c = 0x03 then
      if 2 + leVal (rest.take 2) ≤ rest.length then
        c :: recordTags (rest.drop (2 + leVal (rest.take 2)))
      else [c]
    else if c = 0x04 then
      if 10 + leVal (rest.take 2) ≤ rest.length then
        c :: recordTags (rest.drop (10 + leVal (rest.take 2)))
      else [c]
    else [c]
termination_by b => b.length
decreasing_by
  all_goals simp [List.length_drop]; omega

end Codec

namespace Engine

/-- Mirror of `struct Document` (`main.rs:53-59`) at text level: term
frequencies are the rational values the `f64`s denote. -/
structure Document where
  title : String
  path : String
  term_frequency : List (String × ℚ)
deriving DecidableEq

/-- Mirror of `struct TfIdf` (`main.rs:47-51`). -/
structure TfIdf where
  global_term_count : List (String × Nat)
  documents : List (String × Document)
deriving DecidableEq

/-- The Rust cast `x as u64` on a nonnegative-or-negative finite float value:
truncation toward zero, saturating at the ends.  `Nat.floor` of a rational is
already `0` for negative arguments, matching the saturation at zero. -/
def u64cast (q : ℚ) : Nat := min (2 ^ 64 - 1) ⌊q⌋₊

/-- Model of `documents.entry(title).and_modify(|v| *v += score).or_insert(score)`
(`main.rs:87-90`); the addition is on `u64`, hence reduced modulo `2^64`.
The source map is a `BTreeMap` keyed by title; it is modelled as an
association list — its iteration order only affects the order of the list
fed to the final sort, which the sort erases (all scored titles are
distinct keys). -/
def addScore (m : List (String × Nat)) (title : String) (s : Nat) :
    List (String × Nat) :=
  match lookupA title m with
  | some v => insertA title ((v + s) % 2 ^ 64) m
  | none => insertA title s m

/-- Descending lexicographic comparison on the ranked tuples
`(score, path, title)`: `sortRel a b` holds when `a` is at least `b` under
the Rust `Ord` for `(u64, String, String)` (lexicographic on the tuple,
strings compared lexicographically).  `sort_by(|a, b| b.cmp(a))`
(`main.rs:100`) sorts ascending under the reversed comparison, i.e.
exactly into a `sortRel`-sorted (descending) list. -/
def sortRel (a b : Nat × String × String) : Prop :=
  toLex (b.1, toLex (b.2.1, b.2.2)) ≤ toLex (a.1, toLex (a.2.1, a.2.2))

instance : DecidableRel sortRel := fun _ _ =>
  inferInstanceAs (Decidable (_ ≤ _))

instance : IsTotal (Nat × String × String) sortRel :=
  ⟨fun _ _ => le_total _ _⟩

instance : IsTrans (Nat × String × String) sortRel :=
  ⟨fun _ _ _ hab hbc => le_trans hbc hab⟩

/-- Model of `TfIdf::sort_documents` (`main.rs:69-102`), the ranker, with the `f64`
base-10 logarithm passed in as `lg`.  For each query term (duplicates each
processed): count containing documents, compute
`idf = lg((N + 1) / (df + 1))`, and add
`(100000.0 * idf * freq) as u64` to each containing document's score.
Then each accumulated score is divided by the query length (`u64`
division; in Rust a division by zero panics, but it is only reached when
some document scored, which requires a nonempty query) and the list is
sorted descending.  `documents.get(title).unwrap()` cannot fail when every
stored key is its document's title; the model returns `""` on the
unreachable miss. -/
def TfIdf.sort_documents (lg : ℚ → ℚ) (t : TfIdf) (terms : List String) :
    List (Nat × String × String) :=
  let scores := terms.foldl (fun m term =>
    let term_contains_all :=
      t.documents.countP fun p => (lookupA term p.2.term_frequency).isSome
    let idf := lg (((t.documents.length : ℚ) + 1) / ((term_contains_all : ℚ) + 1))
    t.documents.foldl (fun m p =>
      match lookupA term p.2.term_frequency with
      | some freq => addScore m p.2.title (u64cast (100000 * idf * freq))
      | none => m) m) ([] : List (String × Nat))
  let doc_list := scores.map fun p =>
    (p.2 / terms.length,
     (match lookupA p.1 t.documents with | some d => d.path | none => ""),
     p.1)
  List.insertionSort sortRel doc_list

/-- Outcome of `submit_document`.  The duplicate-title rejection
(`main.rs:159-166`) formats one error string from the colliding title, the
submitted (offending) path and the already-stored (existing) path; the
model carries the three fields. -/
inductive SubmitOutcome where
  | ok
  | duplicateTitle (title offending existing : String)
deriving DecidableEq

/-- One word of the counting pass (`main.rs:178-190`):
`entry(id).and_modify(|v| *v += 1).or_insert(1)`. -/
def countInto (m : List (String × Nat)) (w : String) : List (String × Nat) :=
  match lookupA w m with
  | some v => insertA w (v + 1) m
  | none => insertA w 1 m

/-- The tail of `submit_document` after duplicate resolution
(`main.rs:171-216`): one pass over the normalized words updates the
per-document counts and the store's global counts together; then
`term_frequency[term] = n / distinct_term_count` (exact rational division
in place of the `f64` division), and the new document is stored under
`title`. -/
def ingestRest (t : TfIdf) (title path : String) (words : List String) :
    TfIdf × SubmitOutcome :=
  let st := words.foldl (fun st w => (countInto st.1 w, countInto st.2 w))
    (([] : List (String × Nat)), t.global_term_count)
  let term_count := st.1
  let term_frequency := term_count.map fun q =>
    (q.1, (q.2 : ℚ) / (term_count.length : ℚ))
  ({ global_term_count := st.2,
     documents := insertA title ⟨title, path, term_frequency⟩ t.documents },
   .ok)

/-- Model of `submit_document` (`main.rs:119-217`) from the point where the PDF's
title has been read: `pdfTitle` is `pdf.get_title()`, `words` is the
normalized (lowercased, stemmed) word sequence of the text, `dupe` the
`dupe` query parameter.  Title defaults to the path when missing or empty;
a colliding title is resolved by the `dupe` policy — `replace` removes the
old document (global counts are not decremented), `rename` appends `"-1"`,
`ignore` returns success leaving the store as is, and anything else
returns the duplicate-title error before any mutation. -/
def TfIdf.submit_document (t : TfIdf) (path : String) (pdfTitle : Option String)
    (dupe : Option String) (words : List String) : TfIdf × SubmitOutcome :=
  let title := pdfTitle.getD path
  let title := if title = "" then path else title
  match lookupA title t.documents with
  | some doc =>
    match dupe with
    | some "replace" =>
      ingestRest { t with documents := eraseA title t.documents } title path words
    | some "rename" => ingestRest t (title ++ "-1") path words
    | some "ignore" => (t, .ok)
    | _ => (t, .duplicateTitle title path doc.path)
  | none => ingestRest t title path words

end Engine

namespace Intern

/-- Mirror of `struct StringPool` (`intern.rs:12-15`): the arena of issued
strings in handle order, and the reverse map. -/
structure StringPool where
  flat_pool : List String
  map_pool : List (String × Nat)
deriving DecidableEq

/-- The read-locked phase of `intern` (`intern.rs:42-44`): look the string
up under the shared lock; returns its handle when present. -/
def intern_read (s : String) (p : StringPool) : Option Nat :=
  lookupA s p.map_pool

/-- The write-locked phase of `intern` (`intern.rs:46-51`): allocate the
next handle (the current pool size), append the string to the arena and to
the map.  The code runs this whenever its read phase missed, without
re-checking the map under the write lock. -/
def intern_write (s : String) (p : StringPool) : Nat × StringPool :=
  (p.flat_pool.length,
   ⟨p.flat_pool ++ [s], insertA s p.flat_pool.length p.map_pool⟩)

/-- One uninterrupted call of `intern` (`intern.rs:32-52`): the read phase,
then on a miss the write phase. -/
def intern (s : String) (p : StringPool) : Nat × StringPool :=
  match intern_read s p with
  | some id => (id, p)
  | none => intern_write s p

/-- Model of `get_str` (`intern.rs:54-59`): index into the arena; the out-of-bounds
panic is modelled as `none`. -/
def get_str (p : StringPool) (id : Nat) : Option String :=
  p.flat_pool[id]?

end Intern

namespace Examples

/-- A populated store for the round-trip check: one document, title `"t"`
(byte 116), path `"p"` (byte 112), no terms, no global counts. -/
def oneDoc : Codec.TfIdf := ⟨[], [([116], ⟨[116], [112], []⟩)]⟩

/-- A term text of 65536 bytes (one past the u16 length budget). -/
def longTerm : Codec.Str := List.replicate 65536 97

/-- A store holding one global term whose text has 65536 bytes. -/
def longTermStore : Codec.TfIdf := ⟨[(longTerm, 1)], []⟩

/-- The worked ranking store of the specification: `D1` with term
frequencies cat ↦ 1, dog ↦ 1/2 and `D2` with dog ↦ 3 (global counts as
ingestion would leave them; the ranker never reads them). -/
def rankStore : Engine.TfIdf :=
  ⟨[("cat", 2), ("dog", 4)],
   [("D1", ⟨"D1", "p1", [("cat", 1), ("dog", 1 / 2)]⟩),
    ("D2", ⟨"D2", "p2", [("dog", 3)]⟩)]⟩

/-- A concrete rational standing in for `f64::log10` on the two arguments
the worked example evaluates it at: `lgW 1 = 0` (exact for any `log10`)
and `lgW (3/2) = 0.176091`, inside the interval `[0.17609, 0.17610)` that
any `log10` accurate to `1.2e-6` lands in (the true value is
`0.1760912590…`). -/
def lgW : ℚ → ℚ := fun q => if q = 3 / 2 then 176091 / 1000000 else 0

/-- A store with one stored document, for the duplicate-title theorems. -/
def dupStore : Engine.TfIdf :=
  ⟨[("cat", 2)], [("t", ⟨"t", "old", [("cat", 1)]⟩)]⟩

end Examples

/-! ## Supporting lemmas -/

/-- Looking up the key just inserted returns the inserted value. -/
theorem lookupA_insertA_self {α β : Type} [DecidableEq α] (k : α) (v : β) :
    ∀ m : List (α × β), lookupA k (insertA k v m) = some v := by
  intro m
  induction m with
  | nil => simp [insertA, lookupA]
  | cons p rest ih =>
    by_cases h : k = p.1
    · simp [insertA, lookupA, h]
    · simpa [insertA, lookupA, h] using ih

/-- A second sequential `intern` of the same string hits the read phase and
returns the handle of the first call: the pool maps the string after any
call of `intern`. -/
theorem intern_read_after_intern (s : String) (p : Intern.StringPool) :
    Intern.intern_read s (Intern.intern s p).2 = some (Intern.intern s p).1 := by
  unfold Intern.intern Intern.intern_read Intern.intern_write
  cases h : lookupA s p.map_pool with
  | some id => simp [h]
  | none => simp [h, lookupA_insertA_self]

/-- Resolving the handle of a freshly allocated string yields the string:
the write phase appends at index `flat_pool.length`. -/
theorem get_str_intern_write (s : String) (p : Intern.StringPool) :
    Intern.get_str (Intern.intern_write s p).2 (Intern.intern_write s p).1 =
      some s := by
  simp [Intern.get_str, Intern.intern_write]

/-- From any decoder state, running the loop over a remainder stream that
frames no 0x02 record cannot change the stored documents: tag 0x01 touches
only the global counts, tags 0x03/0x04 only the open document, and the end
of the buffer discards the open document. -/
theorem deserializeLoop_docs_unchanged :
    ∀ (t : Codec.TfIdf) (doc : Option Codec.Document) (b : Codec.Str),
      2 ∉ Codec.recordTags b →
      ∀ t', Codec.deserializeLoop t doc b = .ok t' →
        t'.documents = t.documents := by
  intro t doc b
  induction t, doc, b using Codec.deserializeLoop.induct
  all_goals intro hno t' hok
  all_goals rw [Codec.deserializeLoop.eq_def] at hok
  all_goals rw [Codec.recordTags.eq_def] at hno
  all_goals try simp_all
  all_goals rw [if_neg (by omega)] at hok
  all_goals simp at hok

/-! ## The claims -/

/-- Claim C1.  The claim states that `decode(encode(store))` equals the
store (documents and counts compared by term text) for every populated
store.  On the code it fails: the serializer emits no trailing 0x02 after
the last document, and the decoder only finalizes an open document on a
subsequent 0x02, so the last document of any populated store is lost.
Here: the one-document store `oneDoc` encodes and decodes to the empty
store. -/
theorem roundtrip_drops_last_document :
    Codec.TfIdf.deserialize (Codec.TfIdf.serialize Examples.oneDoc) =
      .ok ⟨[], []⟩ ∧
    Examples.oneDoc ≠ (⟨[], []⟩ : Codec.TfIdf) := by
  constructor
  · simp [Codec.TfIdf.deserialize, Codec.TfIdf.serialize, Codec.deserializeLoop,
      Codec.leVal, Codec.leBytes, Examples.oneDoc, insertA]
  · simp [Examples.oneDoc]

/-- Claim C2.  A document opened by a 0x02 record is inserted into the
store only when a subsequent 0x02 record is read: from any decoder state
with an open document `d`, a successful decode of a remainder stream that
frames no further 0x02 record returns the stored documents exactly as they
were — so at end-of-stream the still-open document (in particular the last
document opened, when its title was not already stored) is absent from the
returned store. -/
theorem open_document_dropped_without_tag2 (b : Codec.Str) (t : Codec.TfIdf)
    (d : Codec.Document) (t' : Codec.TfIdf)
    (hno : 2 ∉ Codec.recordTags b)
    (hok : Codec.deserializeLoop t (some d) b = .ok t') :
    t'.documents = t.documents :=
  deserializeLoop_docs_unchanged t (some d) b hno t' hok

/-- Witness for claim C2: a stream holding one 0x03 (path) record, decoded
from a state with one stored document and an open document titled `[116]`;
decoding succeeds and returns the stored documents unchanged — the open
document is gone. -/
theorem open_document_dropped_without_tag2_witness :
    (Codec.TfIdf.mk [] [([97], ⟨[97], [], []⟩)]).documents =
      (Codec.TfIdf.mk [] [([97], ⟨[97], [], []⟩)]).documents :=
  open_document_dropped_without_tag2 [3, 1, 0, 112]
    (Codec.TfIdf.mk [] [([97], ⟨[97], [], []⟩)]) ⟨[116], [], []⟩
    (Codec.TfIdf.mk [] [([97], ⟨[97], [], []⟩)])
    (by simp [Codec.recordTags, Codec.leVal])
    (by simp [Codec.deserializeLoop, Codec.leVal])

/-- Claim C3.  The claim states that encoding a store containing a string
longer than 65535 bytes fails with `FieldTooLong`.  The code has no such
error: `serialize` casts the byte length `as u16`, wrapping it modulo
2^16.  For the store whose single global term has 65536 bytes, `serialize`
succeeds and emits a length field of zero. -/
theorem serialize_wraps_long_length :
    Codec.TfIdf.serialize Examples.longTermStore =
      0x01 :: 0 :: 0 :: (Codec.leBytes 8 1 ++ Examples.longTerm) ∧
    65535 < Examples.longTerm.length := by
  have hlen : Examples.longTerm.length = 65536 := by
    rw [Examples.longTerm, List.length_replicate]
  constructor
  · simp only [Codec.TfIdf.serialize, Examples.longTermStore, hlen,
      List.flatMap_cons, List.flatMap_nil, List.append_nil, List.nil_append,
      List.cons_append]
    norm_num [Codec.leBytes]
  · rw [hlen]; norm_num

/-- Claim C7.  The claim states that two calls of `intern(s)` return the
same handle even when concurrent.  The code violates it: `intern` checks
the map under the read lock and, on a miss, inserts under the write lock
without re-checking.  The `RwLock` admits the interleaving in which both
threads run the read phase (concurrent read locks) before either write
phase; both miss, and the serialized write phases then hand out two
distinct handles (0 and 1) for the same string, as this theorem computes
on the empty pool. -/
theorem intern_race_two_handles :
    Intern.intern_read "a" ⟨[], []⟩ = none ∧
    (Intern.intern_write "a" ⟨[], []⟩).1 = 0 ∧
    (Intern.intern_write "a" (Intern.intern_write "a" ⟨[], []⟩).2).1 = 1 := by
  refine ⟨rfl, rfl, rfl⟩

/-- Claim C8.  Whenever the decode loop reads a record tag other than
0x01–0x04 — in whatever store/open-document state the preceding records
left it — it returns the unknown-tag error, which carries no store, full
or otherwise. -/
theorem deserialize_unknown_tag_errors (c : Nat) (rest : Codec.Str)
    (t : Codec.TfIdf) (doc : Option Codec.Document)
    (h1 : c ≠ 0x01) (h2 : c ≠ 0x02) (h3 : c ≠ 0x03) (h4 : c ≠ 0x04) :
    Codec.deserializeLoop t doc (c :: rest) = .err (.unknownTag c) := by
  rw [Codec.deserializeLoop.eq_def]
  simp [h1, h2, h3, h4]

/-- Witness for claim C8 at tag byte 5 on the empty store. -/
theorem deserialize_unknown_tag_errors_witness :
    Codec.deserializeLoop ⟨[], []⟩ none [5] = .err (.unknownTag 5) :=
  deserialize_unknown_tag_errors 5 [] ⟨[], []⟩ none
    (by decide) (by decide) (by decide) (by decide)

/-- Claim C9.  Decode is not total: the stream `[0x02, 5, 0]` declares a
5-byte title with no bytes left, and the slice access
`b[i + 3..][..5]` panics — the decoder neither returns a store nor a
decode error (`.abort` models the panic). -/
theorem deserialize_truncated_record_aborts :
    Codec.TfIdf.deserialize [2, 5, 0] = .abort := by
  simp [Codec.TfIdf.deserialize, Codec.deserializeLoop, Codec.leVal]

/-- Claim C10.  With an empty query no term is processed, so no document
accumulates a score and the result is empty; the per-entry division by the
query length (which on `u64` panics at zero) maps over an empty list and
is never evaluated. -/
theorem sort_documents_empty_query (lg : ℚ → ℚ) (t : Engine.TfIdf) :
    Engine.TfIdf.sort_documents lg t [] = [] := rfl

/-- Claim C4.  Submitting a document whose (nonempty) title is already
stored, under the default duplicate policy (no `dupe` parameter, or any
value other than `replace`, `rename`, `ignore`), returns the
duplicate-title error carrying the offending (submitted) path and the
existing document's path, and returns the store exactly as it was: same
documents, same global term counts. -/
theorem submit_document_duplicate_fail_unchanged (t : Engine.TfIdf)
    (path title : String) (dupe : Option String) (words : List String)
    (doc : Engine.Document)
    (htitle : title ≠ "")
    (hdoc : lookupA title t.documents = some doc)
    (hdupe : ∀ s, dupe = some s → s ≠ "replace" ∧ s ≠ "rename" ∧ s ≠ "ignore") :
    Engine.TfIdf.submit_document t path (some title) dupe words =
      (t, .duplicateTitle title path doc.path) := by
  unfold Engine.TfIdf.submit_document
  simp only [Option.getD_some, if_neg htitle, hdoc]
  cases dupe with
  | none => simp
  | some s =>
    obtain ⟨h1, h2, h3⟩ := hdupe s rfl
    simp [h1, h2, h3]

/-- Witness for claim C4: resubmitting title `"t"` (stored with path
`"old"`) from path `"new"` with no `dupe` parameter fails with the two
paths and leaves `dupStore` unchanged. -/
theorem submit_document_duplicate_fail_unchanged_witness :
    Engine.TfIdf.submit_document Examples.dupStore "new" (some "t") none ["x"] =
      (Examples.dupStore, .duplicateTitle "t" "new" "old") :=
  submit_document_duplicate_fail_unchanged Examples.dupStore "new" "t" none
    ["x"] ⟨"t", "old", [("cat", 1)]⟩
    (by simp)
    (by simp [Examples.dupStore, lookupA])
    (by intro s h; exact Option.noConfusion h)

/-- The score a containing document with frequency 1 receives from a query
term whose idf lies in `[0.17609, 0.17610)`:
`(100000.0 * idf * 1.0) as u64 = 17609`. -/
theorem score_floor_17609 (q : ℚ)
    (h2 : 17609 / 100000 ≤ q) (h3 : q < 1761 / 10000) :
    Engine.u64cast (100000 * q) = 17609 := by
  unfold Engine.u64cast
  have hq : (0 : ℚ) ≤ 100000 * q := by nlinarith
  have hfl : ⌊(100000 : ℚ) * q⌋₊ = 17609 := by
    rw [Nat.floor_eq_iff hq]
    constructor
    · push_cast; linarith
    · push_cast; linarith
  rw [hfl]
  omega

/-- Claim C5.  The worked ranking example, for any base-10 logarithm `lg`
that is exact at 1 (every IEEE `log10` returns exactly 0 there) and lands
in `[0.17609, 0.17610)` at `3/2` (true for any `log10` within `1.2e-6` of
the exact value `0.1760912590…`; the interval margin also absorbs the
rounding of the two `f64` multiplications, which is below `1e-9` here):
the query `["dog"]` gives `df = 2`, `idf = lg 1 = 0`, so both documents
score 0 and are ordered by the descending (path, title) tie-break; the
query `["cat"]` gives `df = 1`, `idf = lg (3/2)`, so D1 scores
`⌊100000 · lg(3/2) · 1⌋ = 17609` and D2, which lacks the term, is absent
from the output. -/
theorem sort_documents_worked_example (lg : ℚ → ℚ)
    (h1 : lg 1 = 0)
    (h2 : 17609 / 100000 ≤ lg (3 / 2)) (h3 : lg (3 / 2) < 1761 / 10000) :
    Engine.TfIdf.sort_documents lg Examples.rankStore ["dog"] =
      [(0, "p2", "D2"), (0, "p1", "D1")] ∧
    Engine.TfIdf.sort_documents lg Examples.rankStore ["cat"] =
      [(17609, "p1", "D1")] := by
  constructor
  · have hrel : ¬ Engine.sortRel (0, "p1", "D1") (0, "p2", "D2") := by
      simp [Engine.sortRel, Prod.Lex.le_iff]; decide
    simp only [Engine.TfIdf.sort_documents, Examples.rankStore, List.foldl_cons,
      List.foldl_nil, List.countP_cons, List.countP_nil, lookupA]
    simp
    norm_num [h1, Engine.u64cast]
    exact fun h => absurd h hrel
  · simp only [Engine.TfIdf.sort_documents, Examples.rankStore, List.foldl_cons,
      List.foldl_nil, List.countP_cons, List.countP_nil, lookupA]
    simp
    norm_num
    exact score_floor_17609 (lg (3 / 2)) h2 h3

/-- Witness for claim C5 at the concrete logarithm stand-in `lgW`. -/
theorem sort_documents_worked_example_witness :
    Engine.TfIdf.sort_documents Examples.lgW Examples.rankStore ["dog"] =
      [(0, "p2", "D2"), (0, "p1", "D1")] ∧
    Engine.TfIdf.sort_documents Examples.lgW Examples.rankStore ["cat"] =
      [(17609, "p1", "D1")] :=
  sort_documents_worked_example Examples.lgW
    (by norm_num [Examples.lgW])
    (by norm_num [Examples.lgW])
    (by norm_num [Examples.lgW])

/-- Claim C6.  The ranked output is sorted descending under the full
lexicographic tuple order `(score, path, title)`: every earlier entry is
`sortRel`-above every later one, so equal scores are broken by path and
then title, both descending. -/
theorem sort_documents_sorted_descending (lg : ℚ → ℚ) (t : Engine.TfIdf)
    (terms : List String) :
    List.Sorted Engine.sortRel (Engine.TfIdf.sort_documents lg t terms) := by
  simp only [Engine.TfIdf.sort_documents]
  exact List.sorted_insertionSort Engine.sortRel _
